import Mathlib

/- Shallow embedding of the simpleenv package (package simpleenv, file
   simpleenv.go): Load, validateConstraints, parseValueFromEnv,
   assignFieldValue and isValidURL, with Go strings modelled as lists of
   characters.  External standard-library dependencies are modelled as
   follows: os.Getenv is a total lookup function returning the empty string
   for unset variables (Go cannot distinguish unset from empty here);
   strconv.Atoi and strconv.ParseFloat are modelled on their plain decimal
   grammar with exact integer or rational results; the regexp engine is an
   oracle parameter recording only what validateConstraints observes of
   matchRegex (nil error iff the pattern compiles and matches); net/url.Parse
   is modelled down to the scheme and host extraction that isValidURL
   inspects. -/

namespace SimpleEnv

/-- A Go string, as its list of characters. -/
abbrev Str := List Char

/-- Declared Go type of a struct field: the three reflect kinds handled by
parseValueFromEnv (reflect.String, reflect.Int, reflect.Float64). -/
inductive GoKind where
  | str
  | int
  | float64
deriving DecidableEq

/-- One struct field as seen through reflection: its name, declared type and
the raw value of its env struct tag. -/
structure StructField where
  name : Str
  kind : GoKind
  tag : Str

/-- os.Getenv: total lookup that yields the empty string when unset. -/
abbrev Env := Str → Str

/-- The regexp engine as observed by validateConstraints: matchRegex returns
a nil error iff the pattern compiles and the value matches, and the caller
only tests that error against nil, so the engine collapses to this oracle. -/
abbrev Rx := Str → Str → Bool

/-- The errors Load can return: one constructor per errors.New / fmt.Errorf
site in simpleenv.go, carrying the data interpolated into the message. -/
inductive LoadErr where
  | missingTag
  | requiredMissing (key name : Str)
  | notInSet (name value opts : Str)
  | minArgParse (name : Str)
  | minValueParse (key name : Str)
  | belowMin (key name clause : Str)
  | maxArgParse (name : Str)
  | maxValueParse (key name : Str)
  | aboveMax (key name clause : Str)
  | regexFail (key name : Str)
  | urlFormat (key name : Str)
  | coerceInt (key name : Str)
  | coerceFloat (key name : Str)
  | assignTypeMismatch
deriving DecidableEq

/-- A reflect.Value produced by parseValueFromEnv: a string, an int, or a
float64 (the float64 carried as the exact rational the literal denotes). -/
inductive GoValue where
  | vstr (s : Str)
  | vint (n : ℤ)
  | vfloat (q : ℚ)
deriving DecidableEq

/-- Decidable equality for the Except results of the embedded functions. -/
instance {ε α : Type} [DecidableEq ε] [DecidableEq α] : DecidableEq (Except ε α) := fun a b =>
  match a, b with
  | Except.ok x, Except.ok y =>
    if h : x = y then Decidable.isTrue (by rw [h]) else Decidable.isFalse (by simp [h])
  | Except.error x, Except.error y =>
    if h : x = y then Decidable.isTrue (by rw [h]) else Decidable.isFalse (by simp [h])
  | Except.ok _, Except.error _ => Decidable.isFalse (by simp)
  | Except.error _, Except.ok _ => Decidable.isFalse (by simp)

/-- strings.Split with a one-character separator.  Split always returns at
least one element; in particular Split of the empty string is a singleton
list holding the empty string. -/
def splitChar (sep : Char) : Str → List Str
  | [] => [[]]
  | c :: cs =>
    match splitChar sep cs with
    | [] => [[]]
    | h :: t => if c = sep then [] :: h :: t else (c :: h) :: t

/-- strings.HasPrefix. -/
def hasPfx (p s : Str) : Bool := List.isPrefixOf p s

/-- Decimal digits to a natural number, most significant digit first. -/
def digitsToNat (l : Str) : ℕ := l.foldl (fun a c => 10 * a + (c.toNat - 48)) 0

/-- strconv.Atoi: optional sign followed by one or more decimal digits.
Modelled from strconv (an external library); the int64 overflow check is
outside the modelled range and never reached at the values used here. -/
def goAtoi (s : Str) : Option ℤ :=
  let p : Bool × Str :=
    match s with
    | '+' :: r => (false, r)
    | '-' :: r => (true, r)
    | _ => (false, s)
  if p.2 = [] ∨ ¬ p.2.all Char.isDigit then none
  else some ((if p.1 then -1 else 1) * (digitsToNat p.2 : ℤ))

/-- An integer power of ten. -/
def pow10 : ℕ → ℤ
  | 0 => 1
  | n + 1 => 10 * pow10 n

/-- strconv.ParseFloat with bitSize 64, modelled from strconv (an external
library) on its plain decimal and scientific literal grammar: optional sign,
digits with at most one dot (at least one digit overall), optional e or E
exponent with optional sign and at least one digit, the whole string
consumed.  The result is the exact rational value of the literal, assembled
as the signed digit string over the power of ten given by the fraction
length and the exponent; inf, nan, hex floats, digit-separating underscores
and the overflow range lie outside the modelled fragment, and IEEE rounding
never changes the comparisons made at the decimal values appearing in this
development. -/
def goParseFloat (s : Str) : Option ℚ :=
  let p : Bool × Str :=
    match s with
    | '+' :: r => (false, r)
    | '-' :: r => (true, r)
    | _ => (false, s)
  let ip := p.2.takeWhile Char.isDigit
  let s2 := p.2.dropWhile Char.isDigit
  let q : Str × Str :=
    match s2 with
    | '.' :: r => (r.takeWhile Char.isDigit, r.dropWhile Char.isDigit)
    | _ => ([], s2)
  if ip = [] ∧ q.1 = [] then none
  else
    let mant : ℤ := (if p.1 then -1 else 1) * (digitsToNat (ip ++ q.1) : ℤ)
    match q.2 with
    | [] => some (Rat.divInt mant (pow10 q.1.length))
    | e :: r =>
      if e = 'e' ∨ e = 'E' then
        let ep : Bool × Str :=
          match r with
          | '+' :: rr => (false, rr)
          | '-' :: rr => (true, rr)
          | _ => (false, r)
        let ed := ep.2.takeWhile Char.isDigit
        let rr2 := ep.2.dropWhile Char.isDigit
        if ed = [] ∨ rr2 ≠ [] then none
        else some (if ep.1 then Rat.divInt mant (pow10 (q.1.length + digitsToNat ed))
                   else Rat.divInt (mant * pow10 (digitsToNat ed)) (pow10 q.1.length))
      else none

/-- The Go split(s, sep, cutc=true) helper of net/url: the part before the
first occurrence of the separator, and the part after it (empty when the
separator does not occur). -/
def splitOnce (sep : Char) (s : Str) : Str × Str :=
  (s.takeWhile (fun c => c ≠ sep), (s.dropWhile (fun c => c ≠ sep)).drop 1)

/-- net/url getScheme: a scheme is a leading ASCII letter followed by ASCII
letters, digits, plus, minus or dot, terminated by a colon.  A colon in the
first position is a parse error (none); any other shape means no scheme and
the whole input is the remainder. -/
def getSchemeAux (orig acc : Str) (first : Bool) : Str → Option (Str × Str)
  | [] => some ([], orig)
  | c :: rest =>
    if c.isAlpha then getSchemeAux orig (acc ++ [c]) false rest
    else if c.isDigit ∨ c = '+' ∨ c = '-' ∨ c = '.' then
      if first then some ([], orig) else getSchemeAux orig (acc ++ [c]) false rest
    else if c = ':' then
      if first then none else some (acc, rest)
    else some ([], orig)

/-- net/url getScheme on a whole raw URL. -/
def getSchemeGo (s : Str) : Option (Str × Str) := getSchemeAux s [] true s

/-- The host part of an authority: everything after the last at sign
(strings.LastIndex of the at sign in parseAuthority). -/
def afterLastAt (a : Str) : Str :=
  if a.contains '@' then (a.reverse.takeWhile (fun c => c ≠ '@')).reverse else a

/-- net/url Parse, modelled down to the (lower-cased) scheme and the host:
strip the fragment after the first hash, read the scheme, strip the query
after the first question mark, then take the authority between the double
slash and the next slash and the host after its last at sign.  none is a
parse error (a colon before any scheme character, or a colon inside the
first path segment of a scheme-less URL); host-character validation and
escape handling of the full parser are outside the modelled fragment and
not exercised at the values appearing in this development. -/
def urlParseModel (s : Str) : Option (Str × Str) :=
  let u := (splitOnce '#' s).1
  match getSchemeGo u with
  | none => none
  | some (sch, r0) =>
    let scheme := List.map Char.toLower sch
    let rest := (splitOnce '?' r0).1
    if ¬ hasPfx ['/'] rest ∧ scheme = [] ∧ ((splitOnce '/' rest).1).contains ':' then
      none
    else if ¬ hasPfx ['/'] rest ∧ scheme ≠ [] then
      some (scheme, [])
    else if (scheme ≠ [] ∨ ¬ hasPfx ['/', '/', '/'] rest) ∧ hasPfx ['/', '/'] rest then
      let authority := (rest.drop 2).takeWhile (fun c => c ≠ '/')
      some (scheme, afterLastAt authority)
    else some (scheme, [])

/-- strings.EqualFold, faithful on the ASCII strings isValidURL compares. -/
def eqFold (a b : Str) : Bool := List.map Char.toLower a == List.map Char.toLower b

/-- isValidURL: url.Parse must succeed with a non-empty scheme and a
non-empty host, and the scheme must EqualFold one of http and https. -/
def isValidURL (s : Str) : Bool :=
  match urlParseModel s with
  | none => false
  | some (scheme, host) =>
    if scheme = [] ∨ host = [] then false
    else eqFold scheme ['h', 't', 't', 'p'] || eqFold scheme ['h', 't', 't', 'p', 's']

/-- The clause literal optional. -/
def optStr : Str := ['o', 'p', 't', 'i', 'o', 'n', 'a', 'l']

/-- The format argument literal URL. -/
def urlStr : Str := ['U', 'R', 'L']

/-- The clause head oneof=. -/
def oneofPfx : Str := ['o', 'n', 'e', 'o', 'f', '=']

/-- The clause head min=. -/
def minPfx : Str := ['m', 'i', 'n', '=']

/-- The clause head max=. -/
def maxPfx : Str := ['m', 'a', 'x', '=']

/-- The clause head regex=. -/
def regexPfx : Str := ['r', 'e', 'g', 'e', 'x', '=']

/-- The clause head format=. -/
def formatPfx : Str := ['f', 'o', 'r', 'm', 'a', 't', '=']

/-- Outcome of one iteration of the constraint switch in validateConstraints:
an error return, a successful return of the whole function (the format
branch with an unrecognized literal), or falling through to the next
clause. -/
inductive SwitchRes where
  | halt (e : LoadErr)
  | stop
  | pass
deriving DecidableEq

/-- The switch body of validateConstraints for a single element of
tagOptions, in the source order of the HasPrefix cases; rx is the regexp
oracle, n the field name, k the env key, v the looked-up value. -/
def checkConstraint (rx : Rx) (n k v c : Str) : SwitchRes :=
  if hasPfx oneofPfx c then
    let strOpts := c.drop oneofPfx.length
    let opts := splitChar ',' strOpts
    if opts.contains v then SwitchRes.pass
    else SwitchRes.halt (LoadErr.notInSet n v strOpts)
  else if hasPfx minPfx c then
    let minstr := c.drop minPfx.length
    match goParseFloat minstr with
    | none => SwitchRes.halt (LoadErr.minArgParse n)
    | some m =>
      match goParseFloat v with
      | none => SwitchRes.halt (LoadErr.minValueParse k n)
      | some fv => if fv < m then SwitchRes.halt (LoadErr.belowMin k n c) else SwitchRes.pass
  else if hasPfx maxPfx c then
    let maxstr := c.drop maxPfx.length
    match goParseFloat maxstr with
    | none => SwitchRes.halt (LoadErr.maxArgParse n)
    | some m =>
      match goParseFloat v with
      | none => SwitchRes.halt (LoadErr.maxValueParse k n)
      | some fv => if m < fv then SwitchRes.halt (LoadErr.aboveMax k n c) else SwitchRes.pass
  else if hasPfx regexPfx c then
    let pat := c.drop regexPfx.length
    if rx pat v then SwitchRes.pass else SwitchRes.halt (LoadErr.regexFail k n)
  else if hasPfx formatPfx c then
    let fmtArg := c.drop formatPfx.length
    if fmtArg = urlStr then
      if isValidURL v then SwitchRes.pass else SwitchRes.halt (LoadErr.urlFormat k n)
    else SwitchRes.stop
  else SwitchRes.pass

/-- The range loop of validateConstraints over tagOptions: every iteration
first re-checks the presence rule (empty value and no optional element
anywhere in tagOptions), then runs the constraint switch on the current
element, which can error, return success for the whole function, or fall
through to the next element. -/
def constraintLoop (rx : Rx) (n k v : Str) (topts : List Str) : List Str → Except LoadErr Unit
  | [] => Except.ok ()
  | c :: cs =>
    if v.isEmpty && !(topts.contains optStr) then
      Except.error (LoadErr.requiredMissing k n)
    else
      match checkConstraint rx n k v c with
      | SwitchRes.halt e => Except.error e
      | SwitchRes.stop => Except.ok ()
      | SwitchRes.pass => constraintLoop rx n k v topts cs

/-- Clause scan without the presence rule.  Modelled from the spec: the
specified evaluation of the constraint clauses once presence has been
resolved, used to compare the code's loop against the specified skipping
behaviour for optional fields. -/
def constraintScan (rx : Rx) (n k v : Str) : List Str → Except LoadErr Unit
  | [] => Except.ok ()
  | c :: cs =>
    match checkConstraint rx n k v c with
    | SwitchRes.halt e => Except.error e
    | SwitchRes.stop => Except.ok ()
    | SwitchRes.pass => constraintScan rx n k v cs

/-- validateConstraints: split the tag on semicolons, fail when fewer than
one element results (the missing-struct-tag guard of the source), look the
first element up in the environment, and run the constraint loop over all
of tagOptions, the key element included. -/
def validateConstraints (rx : Rx) (env : Env) (f : StructField) : Except LoadErr Unit :=
  let tagOptions := splitChar ';' f.tag
  if tagOptions.length < 1 then Except.error LoadErr.missingTag
  else
    let envKey := tagOptions.headD []
    let envValue := env envKey
    constraintLoop rx f.name envKey envValue tagOptions tagOptions

/-- parseValueFromEnv: split the tag on semicolons, fail when fewer than one
element results (the missing-struct-tag guard of the source), look the first
element up in the environment, and coerce the raw value by the declared
kind: identity for strings, strconv.Atoi for int, strconv.ParseFloat for
float64, failing with the corresponding cast error. -/
def parseValueFromEnv (env : Env) (f : StructField) : Except LoadErr GoValue :=
  let tagOptions := splitChar ';' f.tag
  if tagOptions.length < 1 then Except.error LoadErr.missingTag
  else
    let envKey := tagOptions.headD []
    let envValue := env envKey
    match f.kind with
    | GoKind.str => Except.ok (GoValue.vstr envValue)
    | GoKind.int =>
      match goAtoi envValue with
      | some n => Except.ok (GoValue.vint n)
      | none => Except.error (LoadErr.coerceInt envKey f.name)
    | GoKind.float64 =>
      match goParseFloat envValue with
      | some q => Except.ok (GoValue.vfloat q)
      | none => Except.error (LoadErr.coerceFloat envKey f.name)

/-- The declared kind a value carries. -/
def valueKind : GoValue → GoKind
  | GoValue.vstr _ => GoKind.str
  | GoValue.vint _ => GoKind.int
  | GoValue.vfloat _ => GoKind.float64

/-- assignFieldValue: the reflect type equality check of the source
(field.Type() != val.Type()); the IsValid and CanSet guards hold for the
exported fields of the addressable struct Load's contract requires. -/
def assignFieldValue (k : GoKind) (v : GoValue) : Except LoadErr GoValue :=
  if valueKind v = k then Except.ok v else Except.error LoadErr.assignTypeMismatch

/-- The zero value of a declared kind, the state of a field of a freshly
allocated struct before Load assigns it. -/
def zeroValue : GoKind → GoValue
  | GoKind.str => GoValue.vstr []
  | GoKind.int => GoValue.vint 0
  | GoKind.float64 => GoValue.vfloat 0

/-- The per-field body of Load's loop, in source order: parseValueFromEnv,
then validateConstraints, then assignFieldValue, propagating the first
error. -/
def processField (rx : Rx) (env : Env) (f : StructField) : Except LoadErr GoValue :=
  match parseValueFromEnv env f with
  | Except.error e => Except.error e
  | Except.ok v =>
    match validateConstraints rx env f with
    | Except.error e => Except.error e
    | Except.ok _ => assignFieldValue f.kind v

/-- Load over the reflected field list of a freshly zero-initialised struct:
fields are processed in declaration order, each successful field is assigned
into the record, and the first error stops the loop, leaving the failing
field and every later field at its zero value.  The pair returned is the
record state Go leaves in the caller's struct together with the returned
error. -/
def Load (rx : Rx) (env : Env) : List StructField → List GoValue × Option LoadErr
  | [] => ([], none)
  | f :: rest =>
    match processField rx env f with
    | Except.error e =>
      (zeroValue f.kind :: List.map (fun g => zeroValue g.kind) rest, some e)
    | Except.ok v => (v :: (Load rx env rest).1, (Load rx env rest).2)

/-- The first element of a field's split tag, its environment key. -/
def keyOf (f : StructField) : Str := (splitChar ';' f.tag).headD []

/-- A regexp oracle rejecting every pattern and value. -/
def rxF : Rx := fun _ _ => false

/-- An environment with every variable unset. -/
def env0 : Env := fun _ => []

/-- The Version field of the example schema: float64, tag VERSION;optional. -/
def fldVersion : StructField :=
  ⟨("Version".data), GoKind.float64, ("VERSION;optional".data)⟩

/-- An optional int field with tag COUNT;optional. -/
def fldCount : StructField := ⟨("Count".data), GoKind.int, ("COUNT;optional".data)⟩

/-- An optional string field with tag TITLE;optional. -/
def fldTitle : StructField := ⟨("Title".data), GoKind.str, ("TITLE;optional".data)⟩

/-- The Concurrency field of the example schema: int, tag CONCURRENCY;min=1. -/
def fldConc : StructField :=
  ⟨("Concurrency".data), GoKind.int, ("CONCURRENCY;min=1".data)⟩

/-- An environment where every variable reads abc. -/
def envAbc : Env := fun _ => ("abc".data)

/-- The key CONCURRENCY. -/
def concKey : Str := "CONCURRENCY".data

/-- The field name Concurrency. -/
def concName : Str := "Concurrency".data

/-- A required string field whose tag carries a oneof clause. -/
def fldReq : StructField := ⟨("F3".data), GoKind.str, ("K3;oneof=a".data)⟩

/-- An optional string field with a oneof clause after the optional clause. -/
def fldOptOneof : StructField :=
  ⟨("F4".data), GoKind.str, ("K4;optional;oneof=a,b".data)⟩

/-- A string field whose tag has an empty key segment before an optional
clause. -/
def fldEmptyKey : StructField := ⟨("X1".data), GoKind.str, (";optional".data)⟩

/-- A string field whose tag is the empty annotation. -/
def fldEmptyTag : StructField := ⟨("X2".data), GoKind.str, []⟩

/-- A string field with an unrecognized format literal followed by a oneof
clause that the looked-up value violates. -/
def fldFmtJson : StructField :=
  ⟨("F6".data), GoKind.str, ("K6;format=JSON;oneof=a,b".data)⟩

/-- An environment where every variable reads zzz. -/
def envZzz : Env := fun _ => ("zzz".data)

/-- The field name F7 used to exercise the format=URL clause. -/
def n7 : Str := "F7".data

/-- The env key K7 used to exercise the format=URL clause. -/
def k7 : Str := "K7".data

/-- The clause format=URL. -/
def fmtURLClause : Str := "format=URL".data

/-- The field name F8 used to exercise the min clause. -/
def n8 : Str := "F8".data

/-- The env key K8 used to exercise the min clause. -/
def k8 : Str := "K8".data

/-- The clause min=5. -/
def minClause5 : Str := "min=5".data

/-- A string field carrying the clause min=5. -/
def fld8 : StructField := ⟨("F8".data), GoKind.str, ("K8;min=5".data)⟩

/-- An environment where every variable reads 4.999. -/
def env8 : Env := fun _ => ("4.999".data)

/-- A field whose key segment is itself a oneof clause. -/
def fld10a : StructField := ⟨("A10".data), GoKind.str, ("oneof=a,b".data)⟩

/-- A field whose key segment is itself a min clause. -/
def fld10b : StructField := ⟨("B10".data), GoKind.str, ("min=5".data)⟩

/-- A field whose key segment is itself a max clause. -/
def fld10c : StructField := ⟨("C10".data), GoKind.str, ("max=2".data)⟩

/-- A field whose key segment is itself a regex clause. -/
def fld10d : StructField := ⟨("D10".data), GoKind.str, ("regex=p".data)⟩

/-- A field whose key segment is itself a format clause. -/
def fld10e : StructField := ⟨("E10".data), GoKind.str, ("format=URL".data)⟩

/-- An environment where every variable reads c. -/
def envC : Env := fun _ => ("c".data)

/-- An environment where every variable reads 3. -/
def env3 : Env := fun _ => ("3".data)

/-- An environment where every variable reads x. -/
def envX : Env := fun _ => ("x".data)

/-- A string field that binds successfully (its key is set). -/
def fldA9 : StructField := ⟨("A9".data), GoKind.str, ("A9K".data)⟩

/-- A string field whose oneof clause rejects the looked-up value. -/
def fldB9 : StructField := ⟨("B9".data), GoKind.str, ("B9K;oneof=x".data)⟩

/-- An environment where every variable reads y. -/
def envY : Env := fun _ => ("y".data)

/-- The error of the failing second field of the c9 witness schema. -/
def e9 : LoadErr := LoadErr.notInSet ("B9".data) ("y".data) ("x".data)

end SimpleEnv

namespace SimpleEnv

/-- strings.Split never returns an empty slice. -/
theorem splitChar_ne_nil (sep : Char) (s : Str) : splitChar sep s ≠ [] := by
  cases s with
  | nil => simp [splitChar]
  | cons c cs =>
    simp only [splitChar]
    cases h : splitChar sep cs with
    | nil => simp
    | cons hd tl => by_cases hc : c = sep <;> simp [hc]

/-- The split of a tag has at least one element. -/
theorem splitChar_length_pos (sep : Char) (s : Str) : 0 < (splitChar sep s).length := by
  cases h : splitChar sep s with
  | nil => exact absurd h (splitChar_ne_nil sep s)
  | cons a l => simp

/-- When optional occurs among tagOptions the presence test of the loop can
never fire, so the loop coincides with the plain clause scan. -/
theorem constraintLoop_eq_scan (rx : Rx) (n k v : Str) (topts : List Str)
    (h : topts.contains optStr = true) :
    ∀ l, constraintLoop rx n k v topts l = constraintScan rx n k v l := by
  intro l
  induction l with
  | nil => rfl
  | cons c cs ih =>
    simp only [constraintLoop, constraintScan, h, Bool.not_true, Bool.and_false,
      Bool.false_eq_true, if_false]
    cases hc : checkConstraint rx n k v c <;> simp [ih]

/-- With an empty looked-up value and no optional element among tagOptions,
the first loop iteration already fails with the required-value error. -/
theorem constraintLoop_required (rx : Rx) (n k : Str) (topts : List Str)
    (h : topts.contains optStr = false) (c : Str) (cs : List Str) :
    constraintLoop rx n k [] topts (c :: cs) =
      Except.error (LoadErr.requiredMissing k n) := by
  simp only [constraintLoop, h, List.isEmpty_nil, Bool.not_false, Bool.and_self]
  rfl

/-- oneof= is not a head of a format= clause. -/
theorem hasPfx_oneof_fmt (x : Str) : hasPfx oneofPfx (formatPfx ++ x) = false := rfl

/-- min= is not a head of a format= clause. -/
theorem hasPfx_min_fmt (x : Str) : hasPfx minPfx (formatPfx ++ x) = false := rfl

/-- max= is not a head of a format= clause. -/
theorem hasPfx_max_fmt (x : Str) : hasPfx maxPfx (formatPfx ++ x) = false := rfl

/-- regex= is not a head of a format= clause. -/
theorem hasPfx_regex_fmt (x : Str) : hasPfx regexPfx (formatPfx ++ x) = false := rfl

/-- format= is a head of a format= clause. -/
theorem hasPfx_fmt_fmt (x : Str) : hasPfx formatPfx (formatPfx ++ x) = true := by
  simp [hasPfx, formatPfx, List.isPrefixOf]

/-- Dropping the head format= of a format= clause leaves its argument. -/
theorem drop_fmtPfx (x : Str) : (formatPfx ++ x).drop formatPfx.length = x := rfl

/-- What the constraint switch does on a format= clause: check the URL shape
when the argument is the literal URL, and otherwise return success for the
whole validation. -/
theorem checkConstraint_format (rx : Rx) (n k v x : Str) :
    checkConstraint rx n k v (formatPfx ++ x) =
      (if x = urlStr then
        (if isValidURL v then SwitchRes.pass else SwitchRes.halt (LoadErr.urlFormat k n))
      else SwitchRes.stop) := by
  simp only [checkConstraint, hasPfx_oneof_fmt, hasPfx_min_fmt, hasPfx_max_fmt,
    hasPfx_regex_fmt, hasPfx_fmt_fmt, drop_fmtPfx, Bool.false_eq_true, if_false, if_true]

end SimpleEnv

namespace SimpleEnv

/-- C1: the claim fails on the code for the non-Text kinds: with its variable
absent, an optional float64 field makes Load fail with the float64 coercion
error and an optional int field with the int coercion error (parseValueFromEnv
coerces the empty raw value before any constraint is looked at), while an
optional string field binds and keeps its zero value. -/
theorem c1_optional_absent_eval :
    Load rxF env0 [fldVersion] =
      ([GoValue.vfloat 0], some (LoadErr.coerceFloat ("VERSION".data) ("Version".data))) ∧
    Load rxF env0 [fldCount] =
      ([GoValue.vint 0], some (LoadErr.coerceInt ("COUNT".data) ("Count".data))) ∧
    Load rxF env0 [fldTitle] = ([GoValue.vstr []], none) := by
  refine ⟨?_, ?_, ?_⟩ <;> decide

/-- C5: the malformed-annotation guard of the source can never fire, because
splitting any tag yields at least one segment: a field with an empty key
segment and an optional clause binds successfully (to the value of the empty
key, here unset), and a field with an entirely empty annotation fails with
the required-value error for the empty key after its environment lookup, not
with the missing-tag error. -/
theorem c5_malformed_never_fires :
    Load rxF env0 [fldEmptyKey] = ([GoValue.vstr []], none) ∧
    (Load rxF env0 [fldEmptyTag]).2 = some (LoadErr.requiredMissing [] ("X2".data)) ∧
    (Load rxF env0 [fldEmptyTag]).2 ≠ some LoadErr.missingTag := by
  refine ⟨?_, ?_, ?_⟩ <;> decide

/-- C2 counterexample: for the int field CONCURRENCY;min=1 with raw value
abc, both the min clause and the int coercion fail, and Load returns the
coercion failure, not the min-clause failure the claim requires. -/
theorem c2_counterexample :
    (Load rxF envAbc [fldConc]).2 = some (LoadErr.coerceInt concKey concName) ∧
    (Load rxF envAbc [fldConc]).2 ≠ some (LoadErr.minValueParse concKey concName) ∧
    (Load rxF envAbc [fldConc]).2 ≠ some (LoadErr.belowMin concKey concName ("min=1".data)) := by
  refine ⟨?_, ?_, ?_⟩ <;> decide

/-- C3 counterexample: for the required int field CONCURRENCY;min=1 with its
variable absent, Load fails with the int coercion error raised by
parseValueFromEnv, not with the required-value error the claim requires. -/
theorem c3_counterexample :
    (Load rxF env0 [fldConc]).2 = some (LoadErr.coerceInt concKey concName) ∧
    (Load rxF env0 [fldConc]).2 ≠ some (LoadErr.requiredMissing concKey concName) := by
  refine ⟨?_, ?_⟩ <;> decide

/-- C4 counterexample: for the optional string field K4;optional;oneof=a,b
with its variable absent, the oneof clause is still evaluated against the
empty raw value and makes Load fail, though the claim says no clause of an
optional absent field can fail the binding. -/
theorem c4_counterexample :
    (Load rxF env0 [fldOptOneof]).2 =
      some (LoadErr.notInSet ("F4".data) [] ("a,b".data)) := by
  decide

/-- C6 counterexample: for the string field K6;format=JSON;oneof=a,b with
raw value zzz, the unrecognized format literal makes validateConstraints
return success immediately and Load binds the value, even though the later
oneof clause rejects zzz (second conjunct), so the unrecognized format is an
early success that swallows later failures, not a no-op. -/
theorem c6_counterexample :
    Load rxF envZzz [fldFmtJson] = ([GoValue.vstr ("zzz".data)], none) ∧
    checkConstraint rxF ("F6".data) ("K6".data) ("zzz".data) ("oneof=a,b".data) =
      SwitchRes.halt (LoadErr.notInSet ("F6".data) ("zzz".data) ("a,b".data)) := by
  refine ⟨?_, ?_⟩ <;> decide

end SimpleEnv

namespace SimpleEnv

/-- C7: the format=URL clause accepts http://localhost:1234 and
https://example.com/path and halts with the URL-format error on ftp://x, on
not-a-url and on the empty string; by definition isValidURL demands a parsed
URL with non-empty host whose non-empty scheme EqualFolds http or https. -/
theorem c7_format_url_cases :
    checkConstraint rxF n7 k7 ("http://localhost:1234".data) fmtURLClause = SwitchRes.pass ∧
    checkConstraint rxF n7 k7 ("https://example.com/path".data) fmtURLClause = SwitchRes.pass ∧
    checkConstraint rxF n7 k7 ("ftp://x".data) fmtURLClause =
      SwitchRes.halt (LoadErr.urlFormat k7 n7) ∧
    checkConstraint rxF n7 k7 ("not-a-url".data) fmtURLClause =
      SwitchRes.halt (LoadErr.urlFormat k7 n7) ∧
    checkConstraint rxF n7 k7 [] fmtURLClause =
      SwitchRes.halt (LoadErr.urlFormat k7 n7) := by
  refine ⟨?_, ?_, ?_, ?_, ?_⟩ <;> decide

/-- C8: the min=5 clause passes the raw values 5, 5.0 and 10, halts with the
below-minimum error on 4.999 and with the min-branch float-parse error (a
constraint-time failure, not a coercion failure) on the non-numeric abc; the
check runs on the raw string parsed as a float, and the last conjunct shows
it applying end to end on a field whose declared type is string. -/
theorem c8_min_clause_cases :
    checkConstraint rxF n8 k8 ("5".data) minClause5 = SwitchRes.pass ∧
    checkConstraint rxF n8 k8 ("5.0".data) minClause5 = SwitchRes.pass ∧
    checkConstraint rxF n8 k8 ("10".data) minClause5 = SwitchRes.pass ∧
    checkConstraint rxF n8 k8 ("4.999".data) minClause5 =
      SwitchRes.halt (LoadErr.belowMin k8 n8 minClause5) ∧
    checkConstraint rxF n8 k8 ("abc".data) minClause5 =
      SwitchRes.halt (LoadErr.minValueParse k8 n8) ∧
    (Load rxF env8 [fld8]).2 = some (LoadErr.belowMin ("K8".data) ("F8".data) minClause5) := by
  refine ⟨?_, ?_, ?_, ?_, ?_, ?_⟩ <;> decide

/-- C10: the range loop of validateConstraints scans tagOptions from index
zero, so a key segment starting with oneof=, min=, max=, regex= or format=
is also evaluated as a constraint of that kind against the value looked up
under that key, and each of the five can make the binding fail. -/
theorem c10_key_scanned_as_constraint :
    (Load rxF envC [fld10a]).2 =
      some (LoadErr.notInSet ("A10".data) ("c".data) ("a,b".data)) ∧
    (Load rxF env3 [fld10b]).2 =
      some (LoadErr.belowMin ("min=5".data) ("B10".data) ("min=5".data)) ∧
    (Load rxF env3 [fld10c]).2 =
      some (LoadErr.aboveMax ("max=2".data) ("C10".data) ("max=2".data)) ∧
    (Load rxF envX [fld10d]).2 =
      some (LoadErr.regexFail ("regex=p".data) ("D10".data)) ∧
    (Load rxF envX [fld10e]).2 =
      some (LoadErr.urlFormat ("format=URL".data) ("E10".data)) := by
  refine ⟨?_, ?_, ?_, ?_, ?_⟩ <;> decide

/-- C2 (amended): Load runs parseValueFromEnv, hence type coercion of the
raw string, before validateConstraints; whenever coercion fails its error is
the one Load returns, whether or not a constraint clause would also have
failed. -/
theorem c2_coercion_first (rx : Rx) (env : Env) (f : StructField)
    (rest : List StructField) (e : LoadErr)
    (h : parseValueFromEnv env f = Except.error e) :
    (Load rx env (f :: rest)).2 = some e := by
  simp [Load, processField, h]

/-- Witness for c2_coercion_first at the int field CONCURRENCY;min=1 with
raw value abc. -/
theorem c2_coercion_first_witness :
    parseValueFromEnv envAbc fldConc = Except.error (LoadErr.coerceInt concKey concName) ∧
    (Load rxF envAbc (fldConc :: [])).2 = some (LoadErr.coerceInt concKey concName) :=
  ⟨by decide,
   c2_coercion_first rxF envAbc fldConc [] (LoadErr.coerceInt concKey concName) (by decide)⟩

/-- C3 (amended): for a string-typed field the identity coercion cannot
fail, so when the looked-up value is empty and no optional clause occurs
among the tag segments, Load fails with the required-value error carrying
the key and the field name, before any constraint clause of the field is
examined (the presence test opens the first loop iteration). -/
theorem c3_required_missing_text (rx : Rx) (env : Env) (f : StructField)
    (rest : List StructField)
    (hk : f.kind = GoKind.str)
    (hv : env (keyOf f) = [])
    (ho : (splitChar ';' f.tag).contains optStr = false) :
    (Load rx env (f :: rest)).2 = some (LoadErr.requiredMissing (keyOf f) f.name) := by
  obtain ⟨t0, ts, ht⟩ := List.exists_cons_of_ne_nil (splitChar_ne_nil ';' f.tag)
  have hg : ¬ (splitChar ';' f.tag).length < 1 := by
    have := splitChar_length_pos ';' f.tag
    omega
  have hkey : keyOf f = t0 := by simp [keyOf, ht]
  have hv' : env t0 = [] := hkey ▸ hv
  have ho' : (t0 :: ts).contains optStr = false := ht ▸ ho
  have hpv : parseValueFromEnv env f = Except.ok (GoValue.vstr []) := by
    simp only [parseValueFromEnv]
    rw [if_neg hg]
    simp only [ht, List.headD_cons, hk]
    rw [hv']
  have hvc : validateConstraints rx env f =
      Except.error (LoadErr.requiredMissing t0 f.name) := by
    simp only [validateConstraints]
    rw [if_neg hg]
    simp only [ht, List.headD_cons]
    rw [hv']
    exact constraintLoop_required rx f.name t0 (t0 :: ts) ho' t0 ts
  have hpf : processField rx env f =
      Except.error (LoadErr.requiredMissing t0 f.name) := by
    simp only [processField, hpv, hvc]
  rw [hkey]
  simp [Load, hpf]

/-- Witness for c3_required_missing_text at a required string field with a
oneof clause and an empty environment. -/
theorem c3_required_missing_text_witness :
    fldReq.kind = GoKind.str ∧
    env0 (keyOf fldReq) = [] ∧
    (splitChar ';' fldReq.tag).contains optStr = false ∧
    (Load rxF env0 (fldReq :: [])).2 =
      some (LoadErr.requiredMissing (keyOf fldReq) fldReq.name) :=
  ⟨rfl, rfl, by decide,
   c3_required_missing_text rxF env0 fldReq [] rfl rfl (by decide)⟩

/-- C4 (amended): when the optional clause occurs among a field's tag
segments only the presence test is disabled; validateConstraints coincides
with the plain clause scan, which still evaluates every remaining clause
against the (possibly empty) raw value and can fail the binding. -/
theorem c4_optional_skips_only_presence (rx : Rx) (env : Env) (f : StructField)
    (h : (splitChar ';' f.tag).contains optStr = true) :
    validateConstraints rx env f =
      constraintScan rx f.name (keyOf f) (env (keyOf f)) (splitChar ';' f.tag) := by
  have hg : ¬ (splitChar ';' f.tag).length < 1 := by
    have := splitChar_length_pos ';' f.tag
    omega
  simp only [validateConstraints, keyOf]
  rw [if_neg hg]
  exact constraintLoop_eq_scan rx f.name _ _ _ h _

/-- Witness for c4_optional_skips_only_presence at the optional field with a
trailing oneof clause. -/
theorem c4_optional_skips_only_presence_witness :
    (splitChar ';' fldOptOneof.tag).contains optStr = true ∧
    validateConstraints rxF env0 fldOptOneof =
      constraintScan rxF fldOptOneof.name (keyOf fldOptOneof)
        (env0 (keyOf fldOptOneof)) (splitChar ';' fldOptOneof.tag) :=
  ⟨by decide, c4_optional_skips_only_presence rxF env0 fldOptOneof (by decide)⟩

/-- C6 (amended): a format= clause whose argument is not the literal URL
makes the constraint loop return success for the whole validation at that
clause, skipping every remaining clause of the field, provided the presence
test of that iteration does not fire first. -/
theorem c6_unrecognized_format_stops (rx : Rx) (n k v : Str) (topts : List Str)
    (x : Str) (rest : List Str)
    (hx : x ≠ urlStr)
    (hp : (v.isEmpty && !(topts.contains optStr)) = false) :
    constraintLoop rx n k v topts ((formatPfx ++ x) :: rest) = Except.ok () := by
  have hc : checkConstraint rx n k v (formatPfx ++ x) = SwitchRes.stop := by
    rw [checkConstraint_format]
    exact if_neg hx
  simp only [constraintLoop, hp]
  simp [hc]

/-- Witness for c6_unrecognized_format_stops: the clause format=JSON stops
the loop before a failing oneof clause. -/
theorem c6_unrecognized_format_stops_witness :
    (("JSON".data : Str) ≠ urlStr) ∧
    ((("zzz".data : Str).isEmpty && !(([("K".data)] : List Str).contains optStr)) = false) ∧
    constraintLoop rxF ("F".data) ("K".data) ("zzz".data) [("K".data)]
      ((formatPfx ++ ("JSON".data)) :: [("oneof=a,b".data)]) = Except.ok () :=
  ⟨by decide, by decide,
   c6_unrecognized_format_stops rxF ("F".data) ("K".data) ("zzz".data) [("K".data)]
     ("JSON".data) [("oneof=a,b".data)] (by decide) (by decide)⟩

/-- C9: when Load fails, the field list splits at the failing field: every
earlier field was processed successfully and is already assigned its coerced
value in the record, the failing field's error is the one returned, and the
failing field together with all later fields is left at its zero value. -/
theorem c9_fail_fast (rx : Rx) (env : Env) (fs : List StructField) (e : LoadErr)
    (h : (Load rx env fs).2 = some e) :
    ∃ pre f post vs, fs = pre ++ f :: post ∧
      List.Forall₂ (fun g v => processField rx env g = Except.ok v) pre vs ∧
      processField rx env f = Except.error e ∧
      (Load rx env fs).1 = vs ++ zeroValue f.kind :: List.map (fun g => zeroValue g.kind) post := by
  induction fs with
  | nil => simp [Load] at h
  | cons f rest ih =>
    cases hpf : processField rx env f with
    | error e' =>
      have he : e' = e := by
        have h2 := h
        simp [Load, hpf] at h2
        exact h2
      subst he
      refine ⟨[], f, rest, [], rfl, List.Forall₂.nil, hpf, ?_⟩
      simp [Load, hpf]
    | ok v =>
      have h2 : (Load rx env rest).2 = some e := by
        simpa [Load, hpf] using h
      obtain ⟨pre, f', post, vs, hfs, hall, herr, hvals⟩ := ih h2
      refine ⟨f :: pre, f', post, v :: vs, ?_, List.Forall₂.cons hpf hall, herr, ?_⟩
      · rw [hfs]
        rfl
      · simp [Load, hpf, hvals]

/-- Witness for c9_fail_fast at a two-field schema whose second field
fails. -/
theorem c9_fail_fast_witness :
    (Load rxF envY [fldA9, fldB9]).2 = some e9 ∧
    (∃ pre f post vs, ([fldA9, fldB9] : List StructField) = pre ++ f :: post ∧
      List.Forall₂ (fun g v => processField rxF envY g = Except.ok v) pre vs ∧
      processField rxF envY f = Except.error e9 ∧
      (Load rxF envY [fldA9, fldB9]).1 =
        vs ++ zeroValue f.kind :: List.map (fun g => zeroValue g.kind) post) :=
  ⟨by decide, c9_fail_fast rxF envY [fldA9, fldB9] e9 (by decide)⟩

end SimpleEnv
